import Mathlib

/-!
Shallow embedding of the MNIST classification notebook `demo_mnist_svm.ipynb`.

The notebook is a straight-line pipeline: load the MNIST arrays, rescale
pixel values, reshape each 28x28 image to a 784-vector, sub-sample training
and test sets by a random permutation prefix, fit library classifiers,
persist snapshots with pickle, measure accuracy, and plot errors, weights
and support vectors.

Numeric arrays are embedded as lists of rationals (numpy float arrays) and
lists of naturals (label arrays); the pipeline's own operations (rescale,
reshape, sub-sample, accuracy, confusion-matrix normalization, error
indexing) are translated directly from the notebook cells.  The external
pieces the notebook only calls into (the pickle/file layer, opaque fitted
classifier objects) are modelled at the spec's abstraction level, as noted
on their definitions.
-/

namespace MnistSvm

/-- Image row/column counts, from cell-4 (`Xtr.shape = 60000 x 28 x 28`). -/
def nrow : ℕ := 28

/-- Image column count (cell-4). -/
def ncol : ℕ := 28

/-- Pixels per image, cell-6: `npix = nrow*ncol`. -/
def npix : ℕ := nrow * ncol

/-- Training sub-sample size, cell-9 and cell-34: `ntr1 = 5000`. -/
def ntr1 : ℕ := 5000

/-- Test sub-sample size, cell-17 and cell-34: `nts1 = 5000`. -/
def nts1 : ℕ := 5000

/-- Pixel rescaling from cell-6: `Xtr = 2*(Xtr/255 - 0.5)` (elementwise). -/
def rescale (x : ℚ) : ℚ := 2 * (x / 255 - 1/2)

/-- Elementwise rescaling of a raw `n x 28 x 28` image array (cell-6 applies
the arithmetic to the whole numpy array at once). -/
def rescale3 (X : List (List (List ℚ))) : List (List (List ℚ)) :=
  X.map (fun img => img.map (fun row => row.map rescale))

/-- Reshape from cell-6: `Xtr.reshape((ntr,npix))` turns each `28 x 28`
image into one flat 784-entry sample row. -/
def reshapeSamples (X : List (List (List ℚ))) : List (List ℚ) :=
  X.map List.flatten

/-- Sub-sampling by a permutation prefix, cell-9 / cell-17 / cell-34:
`Xtr[Iperm[:n],:]` keeps the rows indexed by the first `n` entries of
`Iperm`, in that order.  `d` is the (never hit, for in-range indices)
out-of-range default of the embedding. -/
def subsample {α : Type} (d : α) (X : List α) (perm : List ℕ) (n : ℕ) : List α :=
  (perm.take n).map (fun i => X.getD i d)

/-- Training data handed to `logreg.fit` in cell-11: the cell-9 sub-sample
`(Xtr[Iperm[:ntr1],:], ytr[Iperm[:ntr1]])`. -/
def logregFitData (Xtr : List (List ℚ)) (ytr : List ℕ) (Iperm : List ℕ) :
    List (List ℚ) × List ℕ :=
  (subsample [] Xtr Iperm ntr1, subsample 0 ytr Iperm ntr1)

/-- Training data handed to `svc.fit` in cell-35: the call is
`svc.fit(Xtr,ytr)`, i.e. the full arrays, not the cell-34 sub-sample. -/
def svcFitData (Xtr : List (List ℚ)) (ytr : List ℕ) :
    List (List ℚ) × List ℕ :=
  (Xtr, ytr)

/-- Training data handed to `svcrbf.fit` in cell-54: `(Xtr1, ytr1)` as
rebound by cell-34, i.e. the `ntr1`-row permutation-prefix sub-sample. -/
def svcrbfFitData (Xtr : List (List ℚ)) (ytr : List ℕ) (Iperm : List ℕ) :
    List (List ℚ) × List ℕ :=
  (subsample [] Xtr Iperm ntr1, subsample 0 ytr Iperm ntr1)

/-- The number of indices `i` with `yhat[i] == yts1[i]`: the count the claim
compares cell-17's reported accuracy against. -/
def countMatches : List ℕ → List ℕ → ℕ
  | x :: xs, y :: ys => (if x = y then 1 else 0) + countMatches xs ys
  | _, _ => 0

/-- Accuracy from cell-17 / cell-45 / cell-59: `acc = np.mean(yhat == yts1)`,
the mean of the elementwise 0/1 equality indicators. -/
def acc (yhat yts : List ℕ) : ℚ :=
  (List.zipWith (fun x y => if x = y then (1:ℚ) else 0) yhat yts).sum
    / (yhat.length : ℚ)

/-- Row sums of the confusion matrix, cell-21: `Csum = np.sum(C,1)`. -/
def rowSums (C : List (List ℚ)) : List ℚ := C.map List.sum

/-- Confusion-matrix normalization from cell-21: `C = C / Csum[None,:]`.
`Csum[None,:]` is a `1 x n` row vector, so broadcasting divides entry
`(i,j)` by `Csum[j]`, the sum of row `j`. -/
def normalizeConf (C : List (List ℚ)) : List (List ℚ) :=
  C.map (fun row => List.zipWith (fun c s => c / s) row (rowSums C))

/-- Misclassified test indices from cell-19 / cell-61:
`Ierr = np.where(yts1 != yhat)[0]`, the ascending list of positions where
the true and predicted labels differ. -/
def misclassIdx (yts yhat : List ℕ) : List ℕ :=
  (List.range yts.length).filter (fun i => yts.getD i 0 ≠ yhat.getD i 0)

/-- The error-plot loop of cell-19 / cell-61 reads `Ierr[i]` for
`i in range(nplt)` with `nplt = 4`; each access is embedded as the fallible
`Ierr.get? i`, so the loop succeeds iff all four indices are in bounds. -/
def errPlotReads (Ierr : List ℕ) : Option (List ℕ) :=
  (List.range 4).mapM (fun i => Ierr.get? i)

/-- Modelled from the spec: the pickle/file layer ("serialized snapshots
... written to flat files for reuse across notebook runs", "open-write-close
/ open-read-close of flat serialization files").  A store maps a file name
to the object list last dumped to it; `pickle` itself is external-library
code, not part of this repository. -/
def Store (α : Type) : Type := String → Option (List α)

/-- The empty file system: no snapshot exists yet. -/
def emptyStore (α : Type) : Store α := fun _ => none

/-- `pickle.dump(objs, fp)` on a file opened `"wb"` (cells 13, 37, 43, 54,
57): replace the named file's contents with the dumped object list. -/
def dumpFile {α : Type} (s : Store α) (f : String) (v : List α) : Store α :=
  fun g => if g = f then some v else s g

/-- `pickle.load(fp)` on a file opened `"rb"`: read the named file's
contents, if the file exists. -/
def loadFile {α : Type} (s : Store α) (f : String) : Option (List α) := s f

/-- Failures a snapshot-loading cell can hit: the named file is missing
(`open` raises), or the loaded object does not unpack into the expected
number of names (the tuple assignment raises). -/
inductive LoadErr : Type
  | fileNotFound : LoadErr
  | unpackMismatch : LoadErr
deriving DecidableEq

/-- A snapshot-loading cell such as cell-15 (`logreg, Xtr1, ytr1, Iperm =
pickle.load(fp)`, arity 4) or cell-39 (arity 3): open the file, load, and
unpack into `k` names; fallible code returns `Except`. -/
def loadCell {α : Type} (s : Store α) (f : String) (k : ℕ) :
    Except LoadErr (List α) :=
  match s f with
  | none => .error .fileNotFound
  | some xs => if xs.length = k then .ok xs else .error .unpackMismatch

/-- Running a snapshot-loading cell against the current in-memory bindings
`env` (the `k` names being assigned): on success the names are rebound to
the loaded objects; on an uncaught exception the cell terminates and the
previous bindings are untouched. -/
def runLoadCell {α : Type} (env : List α) (s : Store α) (f : String)
    (k : ℕ) : List α × Option LoadErr :=
  match loadCell s f k with
  | .ok xs => (xs, none)
  | .error e => (env, some e)

/-- Kinds of objects the notebook dumps: opaque fitted classifier objects
(`logreg`, `svc`, `svcrbf`) versus numpy sample/label/index arrays. -/
inductive ObjKind : Type
  | clf : ObjKind
  | arr : ObjKind
deriving DecidableEq

/-- Cell-13 dump: `pickle.dump([logreg, Xtr1, ytr1, Iperm], fp)`. -/
def dumpCell13 : List ObjKind := [.clf, .arr, .arr, .arr]

/-- Cell-37 dump: `pickle.dump([svc, Xtr1, ytr1], fp)`. -/
def dumpCell37 : List ObjKind := [.clf, .arr, .arr]

/-- Cell-43 dump: `pickle.dump([Xts1, yts1, yhat_ts], fp)`. -/
def dumpCell43 : List ObjKind := [.arr, .arr, .arr]

/-- Cell-54 dump: `pickle.dump([svcrbf, Xtr1, ytr1], fp)`. -/
def dumpCell54 : List ObjKind := [.clf, .arr, .arr]

/-- Cell-57 dump: `pickle.dump([yhat_ts, yts1, Xts1], fp)`. -/
def dumpCell57 : List ObjKind := [.arr, .arr, .arr]

/-- All five `pickle.dump` calls of the notebook, in order. -/
def notebookDumps : List (List ObjKind) :=
  [dumpCell13, dumpCell37, dumpCell43, dumpCell54, dumpCell57]

/-- The five dump/load filename-and-arity pairs of the notebook:
(dump file, load file, dumped list length, unpack arity).  Cells 13/15
(`"mnist_logreg.p"`, 4 names), 37/39 (`"mnist_svc.p"`, 3), 43/44
(`"mnist_svc_test.p"`, 3), 54/55 (`"mnist_svcrbf.p"`, 3), 57/58
(`"mnist_svcrbf_test.p"`, 3). -/
def snapshotPairs : List (String × String × ℕ × ℕ) :=
  [("mnist_logreg.p", "mnist_logreg.p", 4, 4),
   ("mnist_svc.p", "mnist_svc.p", 3, 3),
   ("mnist_svc_test.p", "mnist_svc_test.p", 3, 3),
   ("mnist_svcrbf.p", "mnist_svcrbf.p", 3, 3),
   ("mnist_svcrbf_test.p", "mnist_svcrbf_test.p", 3, 3)]

/-! ### Helper lemmas -/

theorem rescale_bounds (x : ℚ) (h0 : 0 ≤ x) (h255 : x ≤ 255) :
    -1 ≤ rescale x ∧ rescale x ≤ 1 := by
  unfold rescale
  constructor <;> linarith

theorem rescale_eq_neg_one_iff (x : ℚ) : rescale x = -1 ↔ x = 0 := by
  unfold rescale
  constructor <;> intro h <;> linarith

theorem rescale_eq_one_iff (x : ℚ) : rescale x = 1 ↔ x = 255 := by
  unfold rescale
  constructor <;> intro h <;> linarith

theorem rescale3_mem_bounds (X : List (List (List ℚ)))
    (hX : ∀ img ∈ X, ∀ row ∈ img, ∀ x ∈ row, 0 ≤ x ∧ x ≤ 255) :
    ∀ img ∈ rescale3 X, ∀ row ∈ img, ∀ y ∈ row, -1 ≤ y ∧ y ≤ 1 := by
  intro img himg row hrow y hy
  simp only [rescale3, List.mem_map] at himg
  obtain ⟨img0, himg0, rfl⟩ := himg
  simp only [List.mem_map] at hrow
  obtain ⟨row0, hrow0, rfl⟩ := hrow
  simp only [List.mem_map] at hy
  obtain ⟨x, hx, rfl⟩ := hy
  exact rescale_bounds x (hX img0 himg0 row0 hrow0 x hx).1 (hX img0 himg0 row0 hrow0 x hx).2

theorem subsample_length {α : Type} (d : α) (X : List α) (perm : List ℕ) (n : ℕ) :
    (subsample d X perm n).length = min n perm.length := by
  simp [subsample]

theorem subsample_getD {α : Type} (d : α) (X : List α) (perm : List ℕ)
    (n i : ℕ) (hin : i < n) (hip : i < perm.length) :
    (subsample d X perm n).getD i d = X.getD (perm.getD i 0) d := by
  have htk : (perm.take n)[i]? = some perm[i] := by
    rw [List.getElem?_take, if_pos hin, List.getElem?_eq_getElem hip]
  have hpg : perm.getD i 0 = perm[i] := by
    rw [List.getD_eq_getElem?_getD, List.getElem?_eq_getElem hip]
    rfl
  rw [subsample, List.getD_eq_getElem?_getD, List.getElem?_map, htk, hpg]
  rfl

theorem acc_sum_eq (a b : List ℕ) :
    (List.zipWith (fun x y => if x = y then (1:ℚ) else 0) a b).sum
      = (countMatches a b : ℚ) := by
  induction a generalizing b with
  | nil => simp [countMatches]
  | cons x xs ih =>
    cases b with
    | nil => simp [countMatches]
    | cons y ys =>
      simp only [List.zipWith_cons_cons, List.sum_cons, ih, countMatches]
      by_cases h : x = y <;> simp [h]

theorem countMatches_le (a b : List ℕ) : countMatches a b ≤ a.length := by
  induction a generalizing b with
  | nil => simp [countMatches]
  | cons x xs ih =>
    cases b with
    | nil => simp [countMatches]
    | cons y ys =>
      have := ih ys
      simp only [countMatches, List.length_cons]
      split <;> omega

theorem countMatches_eq_length_iff (a b : List ℕ) (h : a.length = b.length) :
    countMatches a b = a.length ↔ a = b := by
  induction a generalizing b with
  | nil =>
    cases b with
    | nil => simp [countMatches]
    | cons y ys => simp at h
  | cons x xs ih =>
    cases b with
    | nil => simp at h
    | cons y ys =>
      simp only [List.length_cons] at h
      have hlen : xs.length = ys.length := by omega
      have hle := countMatches_le xs ys
      simp only [countMatches, List.length_cons]
      by_cases hxy : x = y
      · subst hxy
        rw [if_pos rfl]
        constructor
        · intro h1
          have hxs : xs = ys := (ih ys hlen).mp (by omega)
          rw [hxs]
        · intro h2
          injection h2 with _ h2b
          have := (ih ys hlen).mpr h2b
          omega
      · rw [if_neg hxy]
        constructor
        · intro h1
          exfalso
          omega
        · intro h2
          injection h2 with h2a _
          exact absurd h2a hxy

/-! ### The claims -/

/-- C1: rescaling `x = 2*(x/255 - 0.5)` maps every raw array with entries
in `[0, 255]` (both `Xtr` and `Xts`) into `[-1, 1]`, with `-1` attained
exactly at raw value `0` and `1` exactly at raw value `255`. -/
theorem claim_C1 (Xtr Xts : List (List (List ℚ)))
    (htr : ∀ img ∈ Xtr, ∀ row ∈ img, ∀ x ∈ row, 0 ≤ x ∧ x ≤ 255)
    (hts : ∀ img ∈ Xts, ∀ row ∈ img, ∀ x ∈ row, 0 ≤ x ∧ x ≤ 255) :
    (∀ img ∈ rescale3 Xtr, ∀ row ∈ img, ∀ y ∈ row, -1 ≤ y ∧ y ≤ 1) ∧
    (∀ img ∈ rescale3 Xts, ∀ row ∈ img, ∀ y ∈ row, -1 ≤ y ∧ y ≤ 1) ∧
    (∀ x : ℚ, 0 ≤ x → x ≤ 255 →
      ((rescale x = -1 ↔ x = 0) ∧ (rescale x = 1 ↔ x = 255))) :=
  ⟨rescale3_mem_bounds Xtr htr, rescale3_mem_bounds Xts hts,
   fun x _ _ => ⟨rescale_eq_neg_one_iff x, rescale_eq_one_iff x⟩⟩

/-- Witness for C1 at a concrete raw training array `[[[0, 255]]]` and test
array `[[[128]]]`, both with all entries in `[0, 255]`. -/
theorem claim_C1_witness :
    (∀ img ∈ rescale3 [[[(0:ℚ), 255]]], ∀ row ∈ img, ∀ y ∈ row, -1 ≤ y ∧ y ≤ 1) ∧
    (∀ img ∈ rescale3 [[[(128:ℚ)]]], ∀ row ∈ img, ∀ y ∈ row, -1 ≤ y ∧ y ≤ 1) ∧
    (∀ x : ℚ, 0 ≤ x → x ≤ 255 →
      ((rescale x = -1 ↔ x = 0) ∧ (rescale x = 1 ↔ x = 255))) :=
  claim_C1 [[[0, 255]]] [[[128]]] (by decide) (by decide)

/-- C2 (evaluation of the code): the linear-kernel SVM fit of cell-35 is
`svc.fit(Xtr,ytr)`: it receives the full training array, which differs from
the `ntr1`-row permutation-prefix sub-sample whenever the training set has
more than `ntr1` rows. -/
theorem claim_C2 (Xtr : List (List ℚ)) (ytr : List ℕ) (Iperm : List ℕ)
    (hlen : Iperm.length = Xtr.length) (hgt : ntr1 < Xtr.length) :
    (svcFitData Xtr ytr).1 = Xtr ∧
    (svcFitData Xtr ytr).1 ≠ (logregFitData Xtr ytr Iperm).1 := by
  refine ⟨rfl, fun hEq => ?_⟩
  have hl := congrArg List.length hEq
  rw [svcFitData, logregFitData] at hl
  simp only [subsample_length, hlen] at hl
  omega

/-- Witness for C2 at a concrete training array of `5001 > ntr1` rows and
the identity permutation. -/
theorem claim_C2_witness :
    (svcFitData (List.replicate 5001 ([] : List ℚ)) []).1
      = List.replicate 5001 ([] : List ℚ) ∧
    (svcFitData (List.replicate 5001 ([] : List ℚ)) []).1
      ≠ (logregFitData (List.replicate 5001 ([] : List ℚ)) [] (List.range 5001)).1 :=
  claim_C2 (List.replicate 5001 []) [] (List.range 5001)
    (by rw [List.length_range, List.length_replicate])
    (by rw [List.length_replicate]; decide)

/-- C5: a snapshot-loading cell with no error handler: when the named file
is missing, or its contents do not unpack into the expected number of names,
the load cell terminates with an error and the previously bound in-memory
objects are unchanged. -/
theorem claim_C5 {α : Type} (env : List α) (s : Store α) (f : String) (k : ℕ)
    (h : loadFile s f = none ∨ ∃ xs, loadFile s f = some xs ∧ xs.length ≠ k) :
    (runLoadCell env s f k).1 = env ∧ (runLoadCell env s f k).2.isSome := by
  rcases h with h | ⟨xs, hxs, hlen⟩
  · simp [runLoadCell, loadCell, show s f = none from h]
  · simp [runLoadCell, loadCell, show s f = some xs from hxs, hlen]

/-- Witness for C5: loading `"mnist_logreg.p"` from the empty file system
(the file is missing) leaves the binding `[7]` untouched and reports an
error. -/
theorem claim_C5_witness :
    (runLoadCell [7] (emptyStore ℕ) "mnist_logreg.p" 4).1 = [7] ∧
    (runLoadCell [7] (emptyStore ℕ) "mnist_logreg.p" 4).2.isSome :=
  claim_C5 [7] (emptyStore ℕ) "mnist_logreg.p" 4 (Or.inl rfl)

/-- C9: sub-sampling keeps images and labels aligned: applying the same
permutation prefix to the sample array and the label array, entry `i` of
each sub-sample is the original row (resp. label) at index `perm[i]` of the
full dataset. -/
theorem claim_C9 (X : List (List ℚ)) (y : List ℕ) (perm : List ℕ)
    (n i : ℕ) (hin : i < n) (hip : i < perm.length) :
    (subsample [] X perm n).getD i [] = X.getD (perm.getD i 0) [] ∧
    (subsample 0 y perm n).getD i 0 = y.getD (perm.getD i 0) 0 :=
  ⟨subsample_getD [] X perm n i hin hip, subsample_getD 0 y perm n i hin hip⟩

/-- Witness for C9 at the concrete dataset `X = [[5],[6]]`, `y = [10, 20]`,
permutation `[1, 0]`, sub-sample size `2`, entry `0`. -/
theorem claim_C9_witness :
    (subsample [] [[(5:ℚ)],[6]] [1,0] 2).getD 0 []
      = [[(5:ℚ)],[6]].getD ([1,0].getD 0 0) [] ∧
    (subsample 0 [10,20] [1,0] 2).getD 0 0 = [10,20].getD ([1,0].getD 0 0) 0 :=
  claim_C9 [[5],[6]] [10,20] [1,0] 2 0 (by decide) (by decide)

/-- C3: for every dump/load pair of the notebook, dumping a snapshot and
loading it back returns exactly the object list that was written: the pair
uses one filename, the unpack arity equals the dumped list's length, and
the load right after the dump yields the dumped objects. -/
theorem claim_C3 {α : Type} (s : Store α) (xs : List α)
    (p : String × String × ℕ × ℕ) (hp : p ∈ snapshotPairs)
    (hlen : xs.length = p.2.2.1) :
    p.1 = p.2.1 ∧ p.2.2.1 = p.2.2.2 ∧
    loadCell (dumpFile s p.1 xs) p.2.1 p.2.2.2 = .ok xs := by
  simp only [snapshotPairs, List.mem_cons, List.not_mem_nil, or_false] at hp
  rcases hp with rfl | rfl | rfl | rfl | rfl <;>
    exact ⟨rfl, rfl, by simp [loadCell, dumpFile, hlen]⟩

/-- Witness for C3: the logistic-regression snapshot pair at a concrete
store and a concrete four-object dump. -/
theorem claim_C3_witness :
    ("mnist_logreg.p" : String) = "mnist_logreg.p" ∧ (4:ℕ) = 4 ∧
    loadCell (dumpFile (emptyStore ℕ) "mnist_logreg.p" [10,20,30,40])
      "mnist_logreg.p" 4 = .ok [10,20,30,40] :=
  claim_C3 (emptyStore ℕ) [10,20,30,40] ("mnist_logreg.p", "mnist_logreg.p", 4, 4)
    (by simp [snapshotPairs]) rfl

/-- C4: for a non-empty test sub-sample, the reported accuracy
`np.mean(yhat == yts1)` equals the number of matching indices divided by
the number of test samples, lies in `[0, 1]`, and is `1` exactly when every
predicted label equals the true label. -/
theorem claim_C4 (yhat yts : List ℕ) (hlen : yhat.length = yts.length)
    (hne : yhat ≠ []) :
    acc yhat yts = (countMatches yhat yts : ℚ) / (yhat.length : ℚ) ∧
    0 ≤ acc yhat yts ∧ acc yhat yts ≤ 1 ∧
    (acc yhat yts = 1 ↔ yhat = yts) := by
  have hn : 0 < yhat.length := List.length_pos.mpr hne
  have hnq : (0:ℚ) < (yhat.length : ℚ) := by exact_mod_cast hn
  have heq : acc yhat yts = (countMatches yhat yts : ℚ) / (yhat.length : ℚ) := by
    rw [acc, acc_sum_eq]
  refine ⟨heq, ?_, ?_, ?_⟩
  · rw [heq]
    positivity
  · rw [heq, div_le_one hnq]
    exact_mod_cast countMatches_le yhat yts
  · rw [heq, div_eq_one_iff_eq (ne_of_gt hnq), Nat.cast_inj]
    exact countMatches_eq_length_iff yhat yts hlen

/-- Witness for C4 at the concrete predictions `[1, 2]` against true labels
`[1, 3]` (same length, non-empty). -/
theorem claim_C4_witness :
    acc [1,2] [1,3] = (countMatches [1,2] [1,3] : ℚ) / (([1,2] : List ℕ).length : ℚ) ∧
    0 ≤ acc [1,2] [1,3] ∧ acc [1,2] [1,3] ≤ 1 ∧
    (acc [1,2] [1,3] = 1 ↔ [1,2] = [1,3]) :=
  claim_C4 [1,2] [1,3] (by decide) (by decide)

/-- C6 counterexample: the test-prediction snapshot of cell-43,
`pickle.dump([Xts1, yts1, yhat_ts], fp)`, is one of the notebook's dumps and
contains no classifier object. -/
theorem claim_C6_counterexample :
    dumpCell43 ∈ notebookDumps ∧ ObjKind.clf ∉ dumpCell43 := by decide

/-- C6 (amended): the three model snapshots (cells 13, 37, 54) each dump a
fitted classifier together with sample/label arrays, and every dump contains
arrays; but the two test-prediction snapshots (cells 43, 57) contain no
classifier. -/
theorem claim_C6 :
    ObjKind.clf ∈ dumpCell13 ∧ ObjKind.clf ∈ dumpCell37 ∧
    ObjKind.clf ∈ dumpCell54 ∧
    ObjKind.arr ∈ dumpCell13 ∧ ObjKind.arr ∈ dumpCell37 ∧
    ObjKind.arr ∈ dumpCell43 ∧ ObjKind.arr ∈ dumpCell54 ∧
    ObjKind.arr ∈ dumpCell57 ∧
    ObjKind.clf ∉ dumpCell43 ∧ ObjKind.clf ∉ dumpCell57 := by decide

theorem rescale3_shape (X : List (List (List ℚ)))
    (hX : ∀ img ∈ X, img.length = nrow ∧ ∀ row ∈ img, row.length = ncol) :
    ∀ img ∈ rescale3 X, img.length = nrow ∧ ∀ row ∈ img, row.length = ncol := by
  intro img himg
  simp only [rescale3, List.mem_map] at himg
  obtain ⟨img0, h0, rfl⟩ := himg
  refine ⟨by simpa using (hX img0 h0).1, ?_⟩
  intro row hrow
  simp only [List.mem_map] at hrow
  obtain ⟨row0, hr0, rfl⟩ := hrow
  simpa using (hX img0 h0).2 row0 hr0

theorem reshape_sample_length (X : List (List (List ℚ)))
    (hX : ∀ img ∈ X, img.length = nrow ∧ ∀ row ∈ img, row.length = ncol) :
    ∀ s ∈ reshapeSamples X, s.length = npix := by
  intro s hs
  simp only [reshapeSamples, List.mem_map] at hs
  obtain ⟨img, himg, rfl⟩ := hs
  have h1 : img.map List.length = List.replicate nrow ncol := by
    rw [List.eq_replicate_iff]
    refine ⟨by simpa using (hX img himg).1, ?_⟩
    intro b hb
    simp only [List.mem_map] at hb
    obtain ⟨row, hr, rfl⟩ := hb
    exact (hX img himg).2 row hr
  calc img.flatten.length = (img.map List.length).sum := List.length_flatten img
    _ = (List.replicate nrow ncol).sum := by rw [h1]
    _ = nrow * ncol := by rw [List.sum_replicate, smul_eq_mul]
    _ = npix := rfl

/-- C7: the pipeline operations (rescaling, reshaping `28x28` to a
784-vector, sub-sampling, the dump/load round-trip) preserve the dataset
invariants: declared array dimensions (after reshape exactly
`npix = 28*28 = 784` entries per sample) and labels among the ten classes
`0..9`. -/
theorem claim_C7 (X : List (List (List ℚ))) (y : List ℕ) (perm : List ℕ)
    (n : ℕ)
    (hX : ∀ img ∈ X, img.length = nrow ∧ ∀ row ∈ img, row.length = ncol)
    (hy : ∀ l ∈ y, l < 10)
    (hperm : ∀ i ∈ perm, i < (reshapeSamples (rescale3 X)).length) :
    (∀ img ∈ rescale3 X, img.length = nrow ∧ ∀ row ∈ img, row.length = ncol) ∧
    (∀ s ∈ reshapeSamples (rescale3 X), s.length = npix) ∧
    (∀ s ∈ subsample [] (reshapeSamples (rescale3 X)) perm n, s.length = npix) ∧
    (∀ l ∈ subsample 0 y perm n, l < 10) ∧
    (∀ (s : Store (List ℕ)) (f : String) (v : List (List ℕ)),
      loadFile (dumpFile s f v) f = some v) := by
  have h1 := rescale3_shape X hX
  have h2 := reshape_sample_length (rescale3 X) h1
  refine ⟨h1, h2, ?_, ?_, ?_⟩
  · intro s hs
    simp only [subsample, List.mem_map] at hs
    obtain ⟨i, hi, rfl⟩ := hs
    have hlt := hperm i (List.take_subset n perm hi)
    rw [List.getD_eq_getElem?_getD, List.getElem?_eq_getElem hlt, Option.getD_some]
    exact h2 _ (List.getElem_mem hlt)
  · intro l hl
    simp only [subsample, List.mem_map] at hl
    obtain ⟨i, hi, rfl⟩ := hl
    by_cases hlt : i < y.length
    · rw [List.getD_eq_getElem?_getD, List.getElem?_eq_getElem hlt, Option.getD_some]
      exact hy _ (List.getElem_mem hlt)
    · rw [List.getD_eq_getElem?_getD, List.getElem?_eq_none (Nat.le_of_not_lt hlt)]
      simp
  · intro s f v
    simp [loadFile, dumpFile]

/-- Witness for C7 at a concrete one-image dataset: one `28x28` zero image,
label list `[3]`, permutation `[0]`, sub-sample size `1`. -/
theorem claim_C7_witness :
    (∀ img ∈ rescale3 [List.replicate 28 (List.replicate 28 (0:ℚ))],
      img.length = nrow ∧ ∀ row ∈ img, row.length = ncol) ∧
    (∀ s ∈ reshapeSamples (rescale3 [List.replicate 28 (List.replicate 28 (0:ℚ))]),
      s.length = npix) ∧
    (∀ s ∈ subsample []
        (reshapeSamples (rescale3 [List.replicate 28 (List.replicate 28 (0:ℚ))])) [0] 1,
      s.length = npix) ∧
    (∀ l ∈ subsample 0 [3] [0] 1, l < 10) ∧
    (∀ (s : Store (List ℕ)) (f : String) (v : List (List ℕ)),
      loadFile (dumpFile s f v) f = some v) :=
  claim_C7 [List.replicate 28 (List.replicate 28 (0:ℚ))] [3] [0] 1
    (by decide) (by decide) (by simp [reshapeSamples, rescale3])

/-- C8: the confusion-matrix normalization `C / Csum[None,:]` of cell-21
divides entry `(i,j)` by the sum of row `j` (not row `i`); on the concrete
matrix `[[1,0],[1,1]]` a row of the normalized matrix does not sum to 1. -/
theorem claim_C8 :
    (∀ (C : List (List ℚ)) (i j : ℕ), i < C.length →
      j < (C.getD i []).length → j < C.length →
      (rowSums C).getD j 0 ≠ 0 →
      ((normalizeConf C).getD i []).getD j 0
        = (C.getD i []).getD j 0 / (C.getD j []).sum) ∧
    ((normalizeConf [[1, 0], [1, 1]]).getD 1 []).sum ≠ 1 := by
  constructor
  · intro C i j hi hj hj2 _
    have e2 : C.getD i [] = C[i] := by
      rw [List.getD_eq_getElem?_getD, List.getElem?_eq_getElem hi, Option.getD_some]
    have e3 : C.getD j [] = C[j] := by
      rw [List.getD_eq_getElem?_getD, List.getElem?_eq_getElem hj2, Option.getD_some]
    have e1 : (normalizeConf C).getD i []
        = List.zipWith (fun c s => c / s) C[i] (rowSums C) := by
      rw [normalizeConf, List.getD_eq_getElem?_getD, List.getElem?_map,
        List.getElem?_eq_getElem hi]
      rfl
    have hrl : (rowSums C).length = C.length := by simp [rowSums]
    have hz : j < (List.zipWith (fun c s => c / s) C[i] (rowSums C)).length := by
      rw [List.length_zipWith, hrl]
      rw [e2] at hj
      omega
    rw [e1, List.getD_eq_getElem?_getD, List.getElem?_eq_getElem hz,
      Option.getD_some, List.getElem_zipWith]
    have hjr : j < (rowSums C).length := by
      rw [hrl]
      exact hj2
    have hr : (rowSums C)[j] = C[j].sum := by
      simp [rowSums]
    rw [hr, e2, e3]
    have hj' : j < C[i].length := by rw [e2] at hj; exact hj
    rw [List.getD_eq_getElem?_getD, List.getElem?_eq_getElem hj', Option.getD_some]
  · norm_num [normalizeConf, rowSums]

theorem errPlotReads_isSome_iff (l : List ℕ) :
    (errPlotReads l).isSome ↔ 4 ≤ l.length := by
  rcases l with _ | ⟨a, _ | ⟨b, _ | ⟨c, _ | ⟨d, t⟩⟩⟩⟩
  · rw [show errPlotReads [] = none from rfl]
    simp
  · rw [show errPlotReads [a] = none from rfl]
    simp
  · rw [show errPlotReads [a, b] = none from rfl]
    simp
  · rw [show errPlotReads [a, b, c] = none from rfl]
    simp
  · rw [show errPlotReads (a::b::c::d::t) = some [a, b, c, d] from rfl]
    simp only [Option.isSome_some, List.length_cons, true_iff]
    omega

/-- C10: the error-plot loop's accesses `Ierr[i]`, `i < 4`, are all in
bounds exactly when at least 4 test samples are misclassified; `Ierr`
contains exactly the in-range indices where predicted and true labels
differ. -/
theorem claim_C10 (yts yhat : List ℕ) :
    ((errPlotReads (misclassIdx yts yhat)).isSome
      ↔ 4 ≤ (misclassIdx yts yhat).length) ∧
    (∀ i, i ∈ misclassIdx yts yhat
      ↔ i < yts.length ∧ yts.getD i 0 ≠ yhat.getD i 0) := by
  refine ⟨errPlotReads_isSome_iff _, ?_⟩
  intro i
  simp [misclassIdx, List.mem_filter, List.mem_range]

end MnistSvm
